import Mathlib

/-!
# Verification of the RNN sequence-generator notebook

Shallow embedding of `tutorial/01_RNN_generator_solution.ipynb`.

The notebook is a linear script: it synthesizes a noisy two-sine waveform
(`create_time_series`), slices it into mini-batches (the imported
`rnn_minibatch_sequencer`), builds a stacked-GRU TensorFlow graph
(`model_rnn_fn`), trains it and finally runs the trained network in an
autoregressive feedback loop (`prediction_run`), reporting a root-mean-square
error.

Modelling choices:
* Machine floats are modelled by exact rationals `ℚ`; external numerical
  kernels (`np.sin`, `math.sqrt`) are abstracted as function parameters
  `sin : ℚ → ℚ`, `sqrt : ℚ → ℚ`, since their implementation belongs to the
  external library and the claims are about the glue code around them.
* A TensorFlow session run `sess.run([Yout, H], feed)` is abstracted as a
  function `net : state → samples → pkeep → output × state`; the notebook's
  `prediction_run` only interacts with the trained graph through such calls.
* The graph-building function `model_rnn_fn` is embedded symbolically: the
  TensorFlow API calls it makes construct a `TFExpr` / `RnnCellP` syntax tree
  recording exactly which cells, wrappers, layers, loss and optimizer are
  assembled.
* `np.random.random()` draws are an arbitrary function `r : ℕ → ℚ` with the
  hypothesis `0 ≤ r n < 1` where a claim needs the range.
-/

/-! ## Hyperparameters (notebook cell "Hyperparameters" and constants) -/

def RNN_CELLSIZE : ℕ := 64

def NLAYERS : ℕ := 2

def SEQLEN : ℕ := 16

def BATCHSIZE : ℕ := 32

def OFFSET : ℕ := 20

def PRIMELEN : ℕ := 256

def RUNLEN : ℕ := 512

def RMSELEN : ℕ := 128

/-! ## Data generation

Source:
```
WAVEFORM_SELECT = 0 # select 0, 1 or 2
def create_time_series(datalen):
    frequencies = [(0.2, 0.15), (0.35, 0.3), (0.6, 0.55)]
    freq1, freq2 = frequencies[WAVEFORM_SELECT]
    noise = [np.random.random()*0.2 for i in range(datalen)]
    x1 = np.sin(np.arange(0,datalen) * freq1)  + noise
    x2 = np.sin(np.arange(0,datalen) * freq2)  + noise
    x = x1 + x2
    return x.astype(np.float32)
```
`WAVEFORM_SELECT` is a module-level constant; we take it as an argument
`waveform_select` so that the out-of-range behaviour is visible.  The noise
list is modelled by its generator `noise : ℕ → ℚ` (`noise n` is the n-th draw
already scaled by `0.2`); the list indexing `frequencies[WAVEFORM_SELECT]`
returns `none` out of bounds (in Python: an `IndexError`). -/

def frequencies : List (ℚ × ℚ) := [(2/10, 15/100), (35/100, 3/10), (6/10, 55/100)]

def create_time_series (sin : ℚ → ℚ) (waveform_select : ℕ) (noise : ℕ → ℚ)
    (datalen : ℕ) : Option (List ℚ) :=
  match frequencies[waveform_select]? with
  | none => none
  | some (freq1, freq2) =>
      some ((List.range datalen).map
        (fun (n : ℕ) => (sin ((n : ℚ) * freq1) + noise n) + (sin ((n : ℚ) * freq2) + noise n)))

/-- The noise list as written in the source: each entry is a fresh uniform
draw `r n ∈ [0,1)` scaled by `0.2`. -/
def noise_of_draws (r : ℕ → ℚ) : ℕ → ℚ := fun n => r n * (2/10)

/-! ## Inference: the autoregressive feedback loop

Source:
```
def prediction_run(prime_data, run_length):
    H_ = np.zeros([1, RNN_CELLSIZE * NLAYERS]) # zero state initially
    Yout_ = np.zeros([1, 1])
    data_len = prime_data.shape[0]
    if data_len > 0:
        Yin = np.reshape(np.array(prime_data), [1, data_len, 1])
        feed = \x7bHin: H_, samples: Yin, dropout_pkeep: 1.0\x7d
        Yout_, H_ = sess.run([Yout, H], feed_dict=feed)
    results = []
    for i in range(run_length):
        Yout_ = np.reshape(Yout_, [1, 1, 1])
        feed = \x7bHin: H_, samples: Yout_, dropout_pkeep: 1.0\x7d
        Yout_, H_ = sess.run([Yout, H], feed_dict=feed)
        results.append(Yout_[0,0])
    return np.array(results)
```
The trained graph is reached only through `sess.run([Yout, H], feed)`; we
abstract that call as `net Hin samples pkeep = (Yout_, H_)` where the batch
dimension of size 1 is dropped: `samples` is the fed sequence as a flat list,
the output `Yout_` (an array of shape [1,1]) is its single scalar, and the
state rows `H_` (shape [1, RNN_CELLSIZE*NLAYERS]) are a flat list. -/

/-- Abstraction of `sess.run([Yout, H], feed)`: input state, input sample
sequence, dropout keep probability ↦ (output scalar, output state). -/
abbrev Net : Type := List ℚ → List ℚ → ℚ → ℚ × List ℚ

/-- `np.zeros([1, RNN_CELLSIZE * NLAYERS])`, as its single row. -/
def Hzero1 : List ℚ := List.replicate (RNN_CELLSIZE * NLAYERS) 0

/-- The `for i in range(run_length)` loop body of `prediction_run`: feed the
previous output (as a one-element sequence) and the previous state, append
the new output. -/
def prediction_loop (net : Net) : ℚ × List ℚ → ℕ → List ℚ
  | _, 0 => []
  | p, n + 1 =>
      let p2 := net p.2 [p.1] 1
      p2.1 :: prediction_loop net p2 n

def prediction_run (net : Net) (prime_data : List ℚ) (run_length : ℕ) : List ℚ :=
  let H0 := Hzero1
  let Y0 : ℚ := 0
  let data_len := prime_data.length
  let p := if data_len > 0 then net H0 prime_data 1 else (Y0, H0)
  prediction_loop net p run_length

/-- The (output, state) pair after the priming step: the result of the primed
`sess.run` when `prime_data` is nonempty, the initial zeros otherwise. -/
def primed (net : Net) (prime_data : List ℚ) : ℚ × List ℚ :=
  if prime_data.length > 0 then net Hzero1 prime_data 1 else ((0 : ℚ), Hzero1)

/-- One feedback iteration: the previous output is fed back as the input
sample (a batch of a single sequence of a single vector) and the previous
state as the input state. -/
def feed_step (net : Net) (p : ℚ × List ℚ) : ℚ × List ℚ := net p.2 [p.1] 1

/-! ## The model graph

Source:
```
def model_rnn_fn(features, Hin, labels, dropout_pkeep):
    X = features
    batchsize = tf.shape(X)[0]
    seqlen = tf.shape(X)[1]
    cells = [tf.nn.rnn_cell.GRUCell(RNN_CELLSIZE) for _ in range(NLAYERS)]
    dcells = [tf.nn.rnn_cell.DropoutWrapper(cell, output_keep_prob = dropout_pkeep) for cell in cells[:-1]]
    dcells.append(cells[-1])
    cell = tf.nn.rnn_cell.MultiRNNCell(dcells, state_is_tuple=False)
    Yn, H = tf.nn.dynamic_rnn(cell, X, initial_state=Hin)
    Yn = tf.reshape(Yn, [batchsize*seqlen, RNN_CELLSIZE])
    Yr = tf.layers.dense(Yn, 1)
    Yr = tf.reshape(Yr, [batchsize, seqlen, 1])
    Yout = Yr[:,-1,:]
    loss = tf.losses.mean_squared_error(Yr, labels)
    optimizer = tf.train.AdamOptimizer(learning_rate=0.01)
    train_op = optimizer.minimize(loss)
    return Yout, H, loss, train_op
```
Executing this function only assembles a TensorFlow graph; we embed it as a
syntax tree that records each API call made.  `RnnCellP π` is parametric in
the type of the keep-probability tensor so that the cell type and the tensor
expression type need not be mutually inductive. -/

inductive RnnCellP (π : Type) where
  | GRUCell : ℕ → RnnCellP π
  | DropoutWrapper : RnnCellP π → π → RnnCellP π
  | MultiRNNCell : List (RnnCellP π) → Bool → RnnCellP π
deriving Repr

instance : Inhabited (RnnCellP π) := ⟨RnnCellP.GRUCell 0⟩

/-- Symbolic TensorFlow tensors: exactly the ops `model_rnn_fn` uses.
`shapeIndex x i` is `tf.shape(x)[i]`, `mulE` the tensor product
`batchsize*seqlen`, `lastTimeStep x` the slice `x[:,-1,:]`. -/
inductive TFExpr where
  | placeholder : String → TFExpr
  | natLit : ℕ → TFExpr
  | shapeIndex : TFExpr → ℕ → TFExpr
  | mulE : TFExpr → TFExpr → TFExpr
  | dynamicRnnOutput : RnnCellP TFExpr → TFExpr → TFExpr → TFExpr
  | dynamicRnnState : RnnCellP TFExpr → TFExpr → TFExpr → TFExpr
  | reshape : TFExpr → List TFExpr → TFExpr
  | dense : TFExpr → ℕ → TFExpr
  | lastTimeStep : TFExpr → TFExpr
  | meanSquaredError : TFExpr → TFExpr → TFExpr

abbrev RnnCell : Type := RnnCellP TFExpr

inductive Optimizer where
  | AdamOptimizer : ℚ → Optimizer
deriving Repr

inductive TrainOp where
  | minimize : Optimizer → TFExpr → TrainOp

def model_rnn_fn (features Hin labels dropout_pkeep : TFExpr) :
    TFExpr × TFExpr × TFExpr × TrainOp :=
  let X := features
  let batchsize := TFExpr.shapeIndex X 0
  let seqlen := TFExpr.shapeIndex X 1
  let cells := (List.range NLAYERS).map (fun _ => (RnnCellP.GRUCell RNN_CELLSIZE : RnnCell))
  let dcells := cells.dropLast.map (fun c => RnnCellP.DropoutWrapper c dropout_pkeep)
  let dcells := dcells ++ [cells.getLast!]
  let cell := RnnCellP.MultiRNNCell dcells false
  let Yn := TFExpr.dynamicRnnOutput cell X Hin
  let H := TFExpr.dynamicRnnState cell X Hin
  let Yn2 := TFExpr.reshape Yn [TFExpr.mulE batchsize seqlen, TFExpr.natLit RNN_CELLSIZE]
  let Yr := TFExpr.dense Yn2 1
  let Yr2 := TFExpr.reshape Yr [batchsize, seqlen, TFExpr.natLit 1]
  let Yout := TFExpr.lastTimeStep Yr2
  let loss := TFExpr.meanSquaredError Yr2 labels
  let optimizer := Optimizer.AdamOptimizer (1/100)
  let train_op := TrainOp.minimize optimizer loss
  (Yout, H, loss, train_op)

/-- Strip dropout wrappers from a cell. -/
def baseCell : RnnCell → RnnCell
  | RnnCellP.DropoutWrapper c _ => baseCell c
  | c => c

/-- Whether the outermost layer of a cell is a dropout wrapper. -/
def isWrapped : RnnCell → Bool
  | RnnCellP.DropoutWrapper _ _ => true
  | _ => false

/-- The cell stack that a `dynamic_rnn` state tensor was produced from. -/
def stackOf : TFExpr → List RnnCell
  | TFExpr.dynamicRnnState (RnnCellP.MultiRNNCell cs _) _ _ => cs
  | _ => []

/-- Semantics of `tf.losses.mean_squared_error` on (flattened) tensors of
equal shape: the mean of the elementwise squared differences. -/
def mean_squared_error (a b : List ℚ) : ℚ :=
  ((List.zipWith (fun x y => (x - y) ^ 2) a b).sum) / (List.zipWith (fun x y => (x - y) ^ 2) a b).length

/-! ## The error metric

Source (final cell):
```
rmse = math.sqrt(np.mean((data[OFFSET+PRIMELEN:OFFSET+PRIMELEN+RMSELEN] - results[:RMSELEN])**2))
```
`math.sqrt` is abstracted as `sqrt : ℚ → ℚ`. -/

/-- `np.mean`: sum divided by length. -/
def npMean (l : List ℚ) : ℚ := l.sum / l.length

def rmse (sqrt : ℚ → ℚ) (data results : List ℚ) : ℚ :=
  sqrt (npMean (List.zipWith (fun a b => (a - b) ^ 2)
    ((data.drop (OFFSET + PRIMELEN)).take RMSELEN)
    (results.take RMSELEN)))

/-! ## Mini-batch sequencing (spec-modelled)

The training loop iterates over
`utils_batching.rnn_minibatch_sequencer(data, BATCHSIZE, SEQLEN, nb_epochs=NB_EPOCHS)`;
the `utils_batching` module is imported but its source is not part of this
repository. -/

/-- A contiguous sample window of `seqlen` values starting at element
`k * seqlen` of the flat series. -/
def seq_window (data : List ℚ) (seqlen k : ℕ) : List ℚ :=
  (data.drop (k * seqlen)).take seqlen

/-- The label window paired with `seq_window data seqlen k`: the same window
shifted forward by one element, so that the two overlap in all but one
position. -/
def label_window (data : List ℚ) (seqlen k : ℕ) : List ℚ :=
  (data.drop (k * seqlen + 1)).take seqlen

/-- Modelled from the spec: `rnn_minibatch_sequencer` lives in the imported
`utils_batching` module, whose source is missing from the repository.  The
spec describes it as "the mini-batch sequencing function that slices a flat
time series into overlapping sequence/label windows with epoch tracking".
We model it as the stream of `(samples, labels, epoch)` triples: the flat
series is cut into consecutive windows of `seqlen` values, each paired with
the label window shifted one step into the future; `batchsize` consecutive
windows form one batch; the whole slicing is repeated `nb_epochs` times with
`epoch` counting the current pass over the data (starting at 1). -/
def rnn_minibatch_sequencer (data : List ℚ) (batchsize seqlen nb_epochs : ℕ) :
    List (List (List ℚ) × List (List ℚ) × ℕ) :=
  let nb_windows := (data.length - 1) / seqlen
  let nb_batches := nb_windows / batchsize
  (List.range nb_epochs).flatMap (fun e =>
    (List.range nb_batches).map (fun b =>
      ((List.range batchsize).map (fun i => seq_window data seqlen (b * batchsize + i)),
       (List.range batchsize).map (fun i => label_window data seqlen (b * batchsize + i)),
       e + 1)))

/-! ## Concrete instances used by witness statements -/

/-- A concrete executable network used to exercise `prediction_run`. -/
def netEx : Net := fun h x pk => (x.sum + pk, x ++ h)

def pX : TFExpr := TFExpr.placeholder "samples"

def pH : TFExpr := TFExpr.placeholder "Hin"

def pL : TFExpr := TFExpr.placeholder "labels"

def ppk : TFExpr := TFExpr.placeholder "dropout_pkeep"

/-- The per-timestep prediction tensor `Yr` out of the loss node it is
compared against the labels in. -/
def lossPred : TFExpr → TFExpr
  | TFExpr.meanSquaredError yr _ => yr
  | e => e

/-! ## Helper lemmas -/

theorem prediction_loop_eq_iterate (net : Net) (p : ℚ × List ℚ) (n : ℕ) :
    prediction_loop net p n
      = (List.range n).map (fun i => ((feed_step net)^[i + 1] p).1) := by
  induction n generalizing p with
  | zero => rfl
  | succ m ih =>
      rw [List.range_succ_eq_map, List.map_cons, List.map_map]
      show (feed_step net p).1 :: prediction_loop net (feed_step net p) m = _
      rw [ih]
      refine congrArg₂ _ rfl ?_
      refine List.map_congr_left (fun i _ => ?_)
      show ((feed_step net)^[i + 1] (feed_step net p)).1
        = ((feed_step net)^[i + 1 + 1] p).1
      rw [← Function.iterate_succ_apply]

theorem prediction_run_eq_loop (net : Net) (prime_data : List ℚ) (n : ℕ) :
    prediction_run net prime_data n = prediction_loop net (primed net prime_data) n := rfl

theorem prediction_loop_congr (net1 net2 : Net)
    (hnet : ∀ h x, net1 h x 1 = net2 h x 1) (p : ℚ × List ℚ) (n : ℕ) :
    prediction_loop net1 p n = prediction_loop net2 p n := by
  induction n generalizing p with
  | zero => rfl
  | succ m ih =>
      show (net1 p.2 [p.1] 1).1 :: prediction_loop net1 (net1 p.2 [p.1] 1) m
        = (net2 p.2 [p.1] 1).1 :: prediction_loop net2 (net2 p.2 [p.1] 1) m
      rw [hnet p.2 [p.1], ih]

/-! ## Claims about the inference feedback loop -/

/-- C1: for every `run_length` `n ≥ 0`, `prediction_run prime_data n` executes
exactly `n` feedback iterations, each feeding the previous execution's output
and output state back as the next execution's input sample and input state
(`feed_step`, iterated from the primed pair), and returns exactly those `n`
outputs in order as an array of length `n`. -/
theorem prediction_run_feedback_loop (net : Net) (prime_data : List ℚ)
    (run_length : ℕ) :
    (prediction_run net prime_data run_length).length = run_length ∧
    ∀ i, i < run_length →
      (prediction_run net prime_data run_length)[i]?
        = some (((feed_step net)^[i + 1] (primed net prime_data)).1) := by
  constructor
  · rw [prediction_run_eq_loop, prediction_loop_eq_iterate]
    simp
  · intro i hi
    rw [prediction_run_eq_loop, prediction_loop_eq_iterate, List.getElem?_map,
      List.getElem?_range hi]
    rfl

theorem prediction_run_feedback_loop_witness :
    (prediction_run netEx [5] 2).length = 2 ∧
    (prediction_run netEx [5] 2)[1]?
      = some (((feed_step netEx)^[2] (primed netEx [5])).1) :=
  ⟨(prediction_run_feedback_loop netEx [5] 2).1,
   (prediction_run_feedback_loop netEx [5] 2).2 1 (by decide)⟩

/-- C9: with empty `prime_data`, `prediction_run` skips the priming step: the
feedback loop starts from the all-zeros output `0` and the all-zeros state
`Hzero1`, the first iteration is fed exactly those zeros, and the run still
returns exactly `run_length` values. -/
theorem prediction_run_empty_prime (net : Net) (n : ℕ) :
    prediction_run net [] n = prediction_loop net (0, Hzero1) n ∧
    primed net [] = ((0 : ℚ), Hzero1) ∧
    Hzero1 = List.replicate (RNN_CELLSIZE * NLAYERS) 0 ∧
    (prediction_run net [] n).length = n ∧
    (0 < n → (prediction_run net [] n)[0]? = some ((net Hzero1 [0] 1).1)) := by
  refine ⟨rfl, rfl, rfl, ?_, fun hn => ?_⟩
  · rw [prediction_run_eq_loop, prediction_loop_eq_iterate]
    simp
  obtain ⟨m, rfl⟩ : ∃ m, n = m + 1 :=
    ⟨n - 1, (Nat.succ_pred_eq_of_pos hn).symm⟩
  simp [prediction_run, prediction_loop]

theorem prediction_run_empty_prime_witness :
    prediction_run netEx [] 3 = prediction_loop netEx (0, Hzero1) 3 ∧
    (prediction_run netEx [] 3).length = 3 ∧
    (prediction_run netEx [] 3)[0]? = some ((netEx Hzero1 [0] 1).1) :=
  ⟨(prediction_run_empty_prime netEx 3).1,
   (prediction_run_empty_prime netEx 3).2.2.2.1,
   (prediction_run_empty_prime netEx 3).2.2.2.2 (by decide)⟩

/-- C10: dropout is never active at inference and never on the last layer.
The behaviour of `prediction_run` depends on the session only through calls
with keep probability `1.0` (so two networks agreeing at `pkeep = 1` produce
identical runs, for priming and every feedback iteration alike), and in
`model_rnn_fn` every cell of the stack except the last one is wrapped in a
`DropoutWrapper`, the last one is not. -/
theorem dropout_never_at_inference_nor_last_layer (net1 net2 : Net)
    (hnet : ∀ h x, net1 h x 1 = net2 h x 1) (prime_data : List ℚ) (n : ℕ)
    (X Hin L pk : TFExpr) :
    prediction_run net1 prime_data n = prediction_run net2 prime_data n ∧
    (stackOf (model_rnn_fn X Hin L pk).2.1).length = NLAYERS ∧
    (∀ i, i + 1 < NLAYERS →
      ((stackOf (model_rnn_fn X Hin L pk).2.1)[i]?).map isWrapped = some true) ∧
    ((stackOf (model_rnn_fn X Hin L pk).2.1)[NLAYERS - 1]?).map isWrapped
      = some false := by
  refine ⟨?_, rfl, ?_, rfl⟩
  · rw [prediction_run_eq_loop, prediction_run_eq_loop]
    have hp : primed net1 prime_data = primed net2 prime_data := by
      unfold primed
      split
      · exact hnet Hzero1 prime_data
      · rfl
    rw [hp]
    exact prediction_loop_congr net1 net2 hnet _ n
  · intro i hi
    have hi0 : i = 0 := by
      have : NLAYERS = 2 := rfl
      omega
    subst hi0
    rfl

theorem dropout_never_at_inference_nor_last_layer_witness :
    prediction_run netEx [5] 2 = prediction_run netEx [5] 2 ∧
    (stackOf (model_rnn_fn pX pH pL ppk).2.1).length = NLAYERS ∧
    ((stackOf (model_rnn_fn pX pH pL ppk).2.1)[0]?).map isWrapped = some true ∧
    ((stackOf (model_rnn_fn pX pH pL ppk).2.1)[NLAYERS - 1]?).map isWrapped
      = some false := by
  have h := dropout_never_at_inference_nor_last_layer netEx netEx
    (fun _ _ => rfl) [5] 2 pX pH pL ppk
  exact ⟨h.1, h.2.1, h.2.2.1 0 (by decide), h.2.2.2⟩

/-! ## Claims about the model graph -/

/-- C5: `model_rnn_fn` is a stacked gated-recurrent-unit network: it builds
`NLAYERS = 2` GRU cells of size `RNN_CELLSIZE`, combines them (the first one
behind a dropout wrapper) into a single `MultiRNNCell`, and that multi-layer
cell is the one unrolled over the input sequence by `dynamic_rnn`. -/
theorem model_is_stacked_gru (X Hin L pk : TFExpr) :
    NLAYERS = 2 ∧
    stackOf (model_rnn_fn X Hin L pk).2.1
      = [RnnCellP.DropoutWrapper (RnnCellP.GRUCell RNN_CELLSIZE) pk,
         RnnCellP.GRUCell RNN_CELLSIZE] ∧
    (stackOf (model_rnn_fn X Hin L pk).2.1).length = NLAYERS ∧
    (∀ c ∈ stackOf (model_rnn_fn X Hin L pk).2.1,
      baseCell c = RnnCellP.GRUCell RNN_CELLSIZE) ∧
    (model_rnn_fn X Hin L pk).2.1
      = TFExpr.dynamicRnnState
          (RnnCellP.MultiRNNCell (stackOf (model_rnn_fn X Hin L pk).2.1) false)
          X Hin := by
  refine ⟨rfl, rfl, rfl, ?_, rfl⟩
  intro c hc
  rw [show stackOf (model_rnn_fn X Hin L pk).2.1
      = [RnnCellP.DropoutWrapper (RnnCellP.GRUCell RNN_CELLSIZE) pk,
         RnnCellP.GRUCell RNN_CELLSIZE] from rfl] at hc
  have hc2 : c = RnnCellP.DropoutWrapper (RnnCellP.GRUCell RNN_CELLSIZE) pk
      ∨ c = RnnCellP.GRUCell RNN_CELLSIZE := by
    rcases List.mem_cons.mp hc with h | h
    · exact Or.inl h
    · exact Or.inr (List.mem_singleton.mp h)
  rcases hc2 with rfl | rfl
  · rfl
  · rfl

theorem model_is_stacked_gru_witness :
    NLAYERS = 2 ∧
    baseCell (RnnCellP.DropoutWrapper (RnnCellP.GRUCell RNN_CELLSIZE) ppk)
      = RnnCellP.GRUCell RNN_CELLSIZE := by
  have h := model_is_stacked_gru pX pH pL ppk
  refine ⟨h.1, h.2.2.2.1 _ ?_⟩
  rw [h.2.1]
  exact List.mem_cons_self _ _

/-! ## Claims about the loss and the error metric -/

theorem zipWith_take_sum (f : ℚ → ℚ → ℚ) (n : ℕ) :
    ∀ (a b : List ℚ), n ≤ a.length → n ≤ b.length →
    (List.zipWith f (a.take n) (b.take n)).sum
      = ∑ i in Finset.range n, f (a.getD i 0) (b.getD i 0) := by
  induction n with
  | zero => intro a b _ _; simp
  | succ m ih =>
      intro a b ha hb
      match a, b with
      | [], _ => exact absurd ha (by simp)
      | _ :: _, [] => exact absurd hb (by simp)
      | x :: a, y :: b =>
          simp only [List.take_succ_cons, List.zipWith_cons_cons, List.sum_cons]
          rw [ih a b (Nat.le_of_succ_le_succ ha) (Nat.le_of_succ_le_succ hb),
            Finset.sum_range_succ']
          simp only [List.getD_cons_succ, List.getD_cons_zero]
          exact (add_comm _ _)

/-- C4: the network is trained by gradient-descent steps on a loss: the
training op returned by `model_rnn_fn` is `optimizer.minimize(loss)` for the
(gradient-based) Adam optimizer at learning rate `0.01`, the minimized loss
node is `tf.losses.mean_squared_error` between the per-timestep outputs `Yr`
(whose last timestep is the returned `Yout`) and the labels, and that loss
semantics is the mean of the squared differences. -/
theorem training_minimizes_mse (X Hin L pk : TFExpr) (a b : List ℚ) (n : ℕ)
    (ha : a.length = n) (hb : b.length = n) :
    (model_rnn_fn X Hin L pk).2.2.2
      = TrainOp.minimize (Optimizer.AdamOptimizer (1/100))
          (model_rnn_fn X Hin L pk).2.2.1 ∧
    (model_rnn_fn X Hin L pk).2.2.1
      = TFExpr.meanSquaredError (lossPred (model_rnn_fn X Hin L pk).2.2.1) L ∧
    (model_rnn_fn X Hin L pk).1
      = TFExpr.lastTimeStep (lossPred (model_rnn_fn X Hin L pk).2.2.1) ∧
    mean_squared_error a b
      = (∑ i in Finset.range n, (a.getD i 0 - b.getD i 0) ^ 2) / n := by
  refine ⟨rfl, rfl, rfl, ?_⟩
  have hta : a.take n = a := by rw [← ha]; exact List.take_length a
  have htb : b.take n = b := by rw [← hb]; exact List.take_length b
  have hz : (List.zipWith (fun x y => (x - y) ^ 2) a b).length = n := by
    rw [List.length_zipWith, ha, hb, min_self]
  have hsum : (List.zipWith (fun x y => (x - y) ^ 2) a b).sum
      = ∑ i in Finset.range n, (a.getD i 0 - b.getD i 0) ^ 2 := by
    conv_lhs => rw [← hta, ← htb]
    exact zipWith_take_sum _ n a b ha.ge hb.ge
  unfold mean_squared_error
  rw [hsum, hz]

theorem training_minimizes_mse_witness :
    (model_rnn_fn pX pH pL ppk).2.2.2
      = TrainOp.minimize (Optimizer.AdamOptimizer (1/100))
          (model_rnn_fn pX pH pL ppk).2.2.1 ∧
    mean_squared_error [1, 2] [0, 2]
      = (∑ i in Finset.range 2,
          (([1, 2] : List ℚ).getD i 0 - ([0, 2] : List ℚ).getD i 0) ^ 2)
        / ((2 : ℕ) : ℚ) := by
  have h := training_minimizes_mse pX pH pL ppk [1, 2] [0, 2] 2 rfl rfl
  exact ⟨h.1, h.2.2.2⟩

/-- C3: the reported error metric is a root-mean-square error: with
`RMSELEN = 128`, `rmse` is the square root of the mean of the squared
differences between the 128 ground-truth values immediately following the
priming window, `data[OFFSET+PRIMELEN : OFFSET+PRIMELEN+RMSELEN]`, and the
first 128 predicted values `results[:RMSELEN]`. -/
theorem rmse_is_root_mean_square_error (sqrt : ℚ → ℚ) (data results : List ℚ)
    (hdata : OFFSET + PRIMELEN + RMSELEN ≤ data.length)
    (hres : RMSELEN ≤ results.length) :
    RMSELEN = 128 ∧
    rmse sqrt data results
      = sqrt ((∑ i in Finset.range RMSELEN,
          (data.getD (OFFSET + PRIMELEN + i) 0 - results.getD i 0) ^ 2)
          / (RMSELEN : ℚ)) := by
  refine ⟨rfl, ?_⟩
  unfold rmse npMean
  have hlen : (List.zipWith (fun a b => (a - b) ^ 2)
      ((data.drop (OFFSET + PRIMELEN)).take RMSELEN)
      (results.take RMSELEN)).length = RMSELEN := by
    rw [List.length_zipWith, List.length_take, List.length_take,
      List.length_drop]
    unfold OFFSET PRIMELEN RMSELEN at hdata ⊢
    unfold RMSELEN at hres
    omega
  have hsum : (List.zipWith (fun a b => (a - b) ^ 2)
      ((data.drop (OFFSET + PRIMELEN)).take RMSELEN)
      (results.take RMSELEN)).sum
      = ∑ i in Finset.range RMSELEN,
          (data.getD (OFFSET + PRIMELEN + i) 0 - results.getD i 0) ^ 2 := by
    rw [zipWith_take_sum _ RMSELEN (data.drop (OFFSET + PRIMELEN)) results
      (by rw [List.length_drop]; omega) hres]
    refine Finset.sum_congr rfl (fun i _ => ?_)
    simp [List.getD_eq_getElem?_getD, List.getElem?_drop]
  rw [hsum, hlen]

theorem rmse_is_root_mean_square_error_witness :
    rmse id (List.replicate 404 (0 : ℚ)) (List.replicate 128 (0 : ℚ))
      = id (0 : ℚ) := by
  have h := rmse_is_root_mean_square_error id (List.replicate 404 (0 : ℚ))
    (List.replicate 128 (0 : ℚ))
    (by rw [List.length_replicate]; decide)
    (by rw [List.length_replicate]; decide)
  rw [h.2]
  have hz : ∀ (n k : ℕ), (List.replicate n (0 : ℚ)).getD k 0 = 0 := by
    intro n k
    rw [List.getD_eq_getElem?_getD, List.getElem?_replicate]
    split <;> rfl
  rw [show (∑ i in Finset.range RMSELEN,
      ((List.replicate 404 (0 : ℚ)).getD (OFFSET + PRIMELEN + i) 0
        - (List.replicate 128 (0 : ℚ)).getD i 0) ^ 2) = 0 from
    Finset.sum_eq_zero (fun i _ => by rw [hz, hz]; ring)]
  rw [zero_div]

/-! ## Claims about the data generator -/

theorem create_time_series_eq_map (sin : ℚ → ℚ) (waveform_select : ℕ)
    (noise : ℕ → ℚ) (datalen : ℕ) (freq1 freq2 : ℚ)
    (hfreq : frequencies[waveform_select]? = some (freq1, freq2)) :
    create_time_series sin waveform_select noise datalen
      = some ((List.range datalen).map
          (fun (n : ℕ) => sin ((n : ℚ) * freq1) + sin ((n : ℚ) * freq2)
            + 2 * noise n)) := by
  unfold create_time_series
  rw [hfreq]
  refine congrArg some ?_
  refine List.map_congr_left (fun n _ => ?_)
  ring

theorem create_time_series_some_elems (sin : ℚ → ℚ) (waveform_select : ℕ)
    (noise : ℕ → ℚ) (datalen : ℕ) (freq1 freq2 : ℚ) (l : List ℚ)
    (hfreq : frequencies[waveform_select]? = some (freq1, freq2))
    (hl : create_time_series sin waveform_select noise datalen = some l) :
    l.length = datalen ∧
    ∀ n, n < datalen →
      l[n]? = some (sin ((n : ℚ) * freq1) + sin ((n : ℚ) * freq2)
        + 2 * noise n) := by
  rw [create_time_series_eq_map sin waveform_select noise datalen freq1 freq2 hfreq]
    at hl
  cases hl
  constructor
  · simp
  · intro n hn
    rw [List.getElem?_map, List.getElem?_range hn]
    rfl

/-- C2: for every `datalen ≥ 0`, with `WAVEFORM_SELECT ∈ {0,1,2}` selecting
the frequency pair from the fixed list
`[(0.2, 0.15), (0.35, 0.3), (0.6, 0.55)]`, `create_time_series datalen`
returns an array of length `datalen` whose `n`-th element equals
`sin (n*freq1) + sin (n*freq2)` plus the additive random noise term
`2 * noise n`. -/
theorem create_time_series_waveform (sin : ℚ → ℚ) (waveform_select : ℕ)
    (noise : ℕ → ℚ) (datalen : ℕ) (freq1 freq2 : ℚ)
    (_hws : waveform_select = 0 ∨ waveform_select = 1 ∨ waveform_select = 2)
    (hfreq : frequencies[waveform_select]? = some (freq1, freq2)) :
    frequencies = [(2/10, 15/100), (35/100, 3/10), (6/10, 55/100)] ∧
    create_time_series sin waveform_select noise datalen
      = some ((List.range datalen).map
          (fun (n : ℕ) => sin ((n : ℚ) * freq1) + sin ((n : ℚ) * freq2)
            + 2 * noise n)) ∧
    ∀ l, create_time_series sin waveform_select noise datalen = some l →
      l.length = datalen ∧
      ∀ n, n < datalen →
        l[n]? = some (sin ((n : ℚ) * freq1) + sin ((n : ℚ) * freq2)
          + 2 * noise n) := by
  refine ⟨rfl,
    create_time_series_eq_map sin waveform_select noise datalen freq1 freq2 hfreq,
    fun l hl => create_time_series_some_elems sin waveform_select noise datalen
      freq1 freq2 l hfreq hl⟩

theorem create_time_series_waveform_witness :
    create_time_series id 0 (fun _ => 0) 1
      = some ((List.range 1).map
          (fun (n : ℕ) => id ((n : ℚ) * (2/10)) + id ((n : ℚ) * (15/100))
            + 2 * 0)) :=
  (create_time_series_waveform id 0 (fun _ => 0) 1 (2/10) (15/100)
    (Or.inl rfl) rfl).2.1

/-- C7: the list indexing `frequencies[WAVEFORM_SELECT]` is in bounds, and
`create_time_series` succeeds, exactly when `WAVEFORM_SELECT < 3`; violating
that precondition makes the lookup (and only the lookup) fail. -/
theorem create_time_series_total_iff (sin : ℚ → ℚ) (waveform_select : ℕ)
    (noise : ℕ → ℚ) (datalen : ℕ) :
    frequencies.length = 3 ∧
    ((create_time_series sin waveform_select noise datalen).isSome = true
      ↔ waveform_select < frequencies.length) ∧
    ((frequencies[waveform_select]?).isSome = true
      ↔ waveform_select < frequencies.length) := by
  have hidx : ∀ (l : List (ℚ × ℚ)) (i : ℕ), (l[i]?).isSome = true ↔ i < l.length := by
    intro l i
    constructor
    · intro h
      by_contra hn
      rw [List.getElem?_eq_none (Nat.le_of_not_lt hn)] at h
      simp at h
    · intro h
      rw [List.getElem?_eq_getElem h]
      rfl
  refine ⟨rfl, ?_, hidx frequencies waveform_select⟩
  rw [← hidx frequencies waveform_select]
  unfold create_time_series
  cases hf : frequencies[waveform_select]? with
  | none => simp
  | some p => cases p with | mk f1 f2 => simp

/-- C8: inside `create_time_series` the identical noise vector is added to
both sinusoids before they are summed, so every output element carries twice
a single scaled uniform draw: the additive noise on element `n` is exactly
`2 * (r n * 0.2)`, which lies in `[0, 0.4)` when the draw `r n` lies in
`[0, 1)` — double what a single noise term would give. -/
theorem noise_added_twice (sin : ℚ → ℚ) (waveform_select : ℕ) (r : ℕ → ℚ)
    (datalen : ℕ) (freq1 freq2 : ℚ) (l : List ℚ)
    (hfreq : frequencies[waveform_select]? = some (freq1, freq2))
    (hl : create_time_series sin waveform_select (noise_of_draws r) datalen
      = some l)
    (hr : ∀ n, 0 ≤ r n ∧ r n < 1) :
    ∀ n, n < datalen →
      l[n]? = some (sin ((n : ℚ) * freq1) + sin ((n : ℚ) * freq2)
        + 2 * noise_of_draws r n) ∧
      2 * noise_of_draws r n = 2 * (r n * (2/10)) ∧
      0 ≤ 2 * noise_of_draws r n ∧ 2 * noise_of_draws r n < 2/5 := by
  intro n hn
  obtain ⟨hn0, hn1⟩ := hr n
  refine ⟨?_, rfl, by unfold noise_of_draws; linarith, by unfold noise_of_draws; linarith⟩
  exact (create_time_series_some_elems sin waveform_select (noise_of_draws r)
    datalen freq1 freq2 l hfreq hl).2 n hn

theorem noise_added_twice_witness :
    ([(1/5 : ℚ)][(0 : ℕ)]?
      = some ((0 : ℚ) + 0 + 2 * noise_of_draws (fun _ => 1/2) 0)) ∧
    2 * noise_of_draws (fun _ => 1/2) 0 = 2 * ((1/2 : ℚ) * (2/10)) ∧
    0 ≤ 2 * noise_of_draws (fun _ => 1/2) 0 ∧
    2 * noise_of_draws (fun _ => 1/2) 0 < 2/5 :=
  noise_added_twice (fun _ => 0) 0 (fun _ => 1/2) 1 (2/10) (15/100) [1/5]
    rfl
    (by norm_num [create_time_series, frequencies, noise_of_draws, List.range_succ])
    (fun n => ⟨by norm_num, by norm_num⟩) 0 (by decide)

/-! ## Claim about the mini-batch sequencer (spec-modelled) -/

theorem range_flatMap_map_spec {α : Type} (g : ℕ → ℕ → α) (n m : ℕ) :
    ((List.range n).flatMap (fun e => (List.range m).map (g e))).length = n * m ∧
    ∀ e b, e < n → b < m →
      ((List.range n).flatMap (fun e => (List.range m).map (g e)))[e * m + b]?
        = some (g e b) := by
  induction n with
  | zero => exact ⟨by simp, fun e b he _ => absurd he (Nat.not_lt_zero e)⟩
  | succ k ih =>
      constructor
      · rw [List.range_succ, List.flatMap_append, List.length_append, ih.1]
        simp [Nat.succ_mul]
      · intro e b he hb
        rw [List.range_succ, List.flatMap_append]
        rcases Nat.lt_succ_iff_lt_or_eq.mp he with h | rfl
        · have hin : e * m + b < ((List.range k).flatMap
              (fun e => (List.range m).map (g e))).length := by
            rw [ih.1]
            have h1 : e * m + b < (e + 1) * m := by
              rw [Nat.succ_mul]
              omega
            exact Nat.lt_of_lt_of_le h1 (Nat.mul_le_mul_right m h)
          rw [List.getElem?_append, if_pos hin]
          exact ih.2 e b h hb
        · have hlen : ((List.range e).flatMap
              (fun e => (List.range m).map (g e))).length = e * m := ih.1
          rw [List.getElem?_append_right (by rw [hlen]; omega)]
          rw [hlen, Nat.add_sub_cancel_left]
          simp only [List.flatMap_cons, List.flatMap_nil, List.append_nil]
          rw [List.getElem?_map, List.getElem?_range hb]
          rfl

/-- C6 (spec-modelled): the mini-batch sequencing function slices the flat
time series into overlapping sequence windows and label windows — each label
window is the sample window shifted one step into the future, so the two
agree on all overlapping positions — groups `batchsize` windows per batch,
and yields with every `(samples, labels)` batch an epoch number that tracks
the current pass over the data: the batch at stream position
`e * batches_per_epoch + b` carries epoch number `e + 1`. -/
theorem rnn_minibatch_sequencer_spec (data : List ℚ)
    (batchsize seqlen nb_epochs e b : ℕ)
    (he : e < nb_epochs)
    (hb : b < ((data.length - 1) / seqlen) / batchsize) :
    (rnn_minibatch_sequencer data batchsize seqlen nb_epochs).length
      = nb_epochs * (((data.length - 1) / seqlen) / batchsize) ∧
    (rnn_minibatch_sequencer data batchsize seqlen nb_epochs)[
        e * (((data.length - 1) / seqlen) / batchsize) + b]?
      = some
        ((List.range batchsize).map
          (fun i => seq_window data seqlen (b * batchsize + i)),
         (List.range batchsize).map
          (fun i => label_window data seqlen (b * batchsize + i)),
         e + 1) ∧
    (∀ k m, m + 1 < seqlen →
      (label_window data seqlen k)[m]? = (seq_window data seqlen k)[m + 1]?) := by
  have hg := range_flatMap_map_spec
    (fun e b =>
      ((List.range batchsize).map
        (fun i => seq_window data seqlen (b * batchsize + i)),
       (List.range batchsize).map
        (fun i => label_window data seqlen (b * batchsize + i)),
       e + 1))
    nb_epochs (((data.length - 1) / seqlen) / batchsize)
  refine ⟨hg.1, hg.2 e b he hb, fun k m hm => ?_⟩
  unfold label_window seq_window
  rw [List.getElem?_take, List.getElem?_take, if_pos (by omega), if_pos hm,
    List.getElem?_drop, List.getElem?_drop]
  refine congrArg _ ?_
  omega

theorem rnn_minibatch_sequencer_spec_witness :
    (rnn_minibatch_sequencer [1, 2, 3, 4, 5] 1 2 1).length = 1 * 2 ∧
    (rnn_minibatch_sequencer [1, 2, 3, 4, 5] 1 2 1)[0]?
      = some
        ((List.range 1).map (fun i => seq_window [1, 2, 3, 4, 5] 2 (0 * 1 + i)),
         (List.range 1).map (fun i => label_window [1, 2, 3, 4, 5] 2 (0 * 1 + i)),
         0 + 1) ∧
    (label_window [1, 2, 3, 4, 5] 2 0)[0]? = (seq_window [1, 2, 3, 4, 5] 2 0)[1]? := by
  have h := rnn_minibatch_sequencer_spec [1, 2, 3, 4, 5] 1 2 1 0 0
    (by decide) (by decide)
  exact ⟨h.1, h.2.1, h.2.2 0 0 (by decide)⟩
